import Mathlib

set_option maxRecDepth 10000

/-!
Verification of the STEMMA soil moisture sensor driver (`src/lib.rs`,
`src/error.rs`).

The driver is embedded shallowly:

* `f32` arithmetic is modelled exactly: a finite IEEE-754 binary32 value is
  represented by the integer `q` with value `q * 2⁻¹⁴⁹` (every finite binary32
  value is an integer multiple of `2⁻¹⁴⁹`, and two finite values are equal as
  floats iff their `q` agree, ignoring the sign of zero, which Rust `==` also
  ignores).  `roundF32` is round-to-nearest, ties-to-even at the binary32
  granularity, including subnormals; overflow to infinity is not modelled —
  every value arising in this development stays far below the finite range
  limit `2¹²⁸`.
* The I2C bus handle is modelled as an oracle `EnvI2C`: a response function
  from a call counter and the requested bus operation to `none` (bus error)
  or `some bytes`, plus the mock's internal call counter (the interior state
  the real handle mutates through `&mut self`).
* Every driver operation returns its result, the trace of externally visible
  events (bus writes, bus reads, delay requests) and the updated driver
  value, embedding `&mut self` as explicit state passing.
* The error enum of `src/error.rs` is embedded with its three variants; the
  payload on the write variant is elided because the driver discards the
  underlying cause (`.map_err(|_| ...)`).
* The blocking `impl` block (lib.rs lines 198-239) and the async `impl`
  block (lib.rs lines 150-196) are transcribed separately, as in the source,
  so that their equivalence is a theorem rather than an artefact of sharing
  one definition.
-/

/-- Floor of the base-2 logarithm, by structural recursion on an explicit
fuel argument so that the kernel can evaluate it. -/
def log2fuel : Nat → Nat → Nat
  | 0, _ => 0
  | fuel + 1, n => if n < 2 then 0 else log2fuel fuel (n / 2) + 1

/-- Rounds the rational `n / d` (for `d > 0`) to the nearest integer, ties to
even. -/
def rdivEven (n d : Int) : Int :=
  let q := n / d
  let r := n % d
  if 2 * r < d then q
  else if d < 2 * r then q + 1
  else if q % 2 = 0 then q else q + 1

/-- Rounds the rational `n / d` (for `d > 0`) to the nearest IEEE-754
binary32 value, ties to even, returning the result scaled by `2¹⁴⁹` (so an
integer).  The rounding granularity is `2^g` with
`g = max (⌊log₂ |n / d|⌋ - 23) (-149)`, which covers normal and subnormal
results. -/
def roundF32 (n : Int) (d : Nat) : Int :=
  if n = 0 then 0 else
  let t : Nat := n.natAbs * 2 ^ 300 / d
  if t = 0 then 0 else
  let e : Int := (log2fuel 1000 t : Int) - 300
  let g : Int := max (e - 23) (-149)
  let q : Int :=
    if g ≤ 0 then rdivEven (n * 2 ^ (-g).toNat) (d : Int)
    else rdivEven n ((d : Int) * 2 ^ g.toNat)
  q * 2 ^ (g + 149).toNat

/-- A finite binary32 value, represented by its value scaled by `2¹⁴⁹`. -/
structure F32 where
  q : Int
deriving DecidableEq, Repr

/-- Rust `as f32` conversion of an integer (round to nearest, ties even). -/
def F32.ofInt (n : Int) : F32 := ⟨roundF32 n 1⟩

/-- Binary32 multiplication (correctly rounded). -/
def F32.mul (a b : F32) : F32 := ⟨roundF32 (a.q * b.q) (2 ^ 298)⟩

/-- Binary32 addition (correctly rounded). -/
def F32.add (a b : F32) : F32 := ⟨roundF32 (a.q + b.q) (2 ^ 149)⟩

/-- The binary32 value of the decimal literal `num / den`. -/
def f32lit (num : Int) (den : Nat) : F32 := ⟨roundF32 num den⟩

/-- Source constant `TEMP_C_CONSTANT: f32 = 0.000015258789` (lib.rs line 15). -/
def TEMP_C_CONSTANT : F32 := f32lit 15258789 (10 ^ 12)

/-- Source constant `TEMP_F_CONSTANT: f32 = TEMP_C_CONSTANT * 1.8`
(lib.rs line 16); the product is rounded at compile time in `f32`. -/
def TEMP_F_CONSTANT : F32 := F32.mul TEMP_C_CONSTANT (f32lit 18 10)

/-- Source constant `TEMP_F_CONSTANT_SUM: f32 = 32.0` (lib.rs line 17). -/
def TEMP_F_CONSTANT_SUM : F32 := f32lit 32 1

/-- Rust `i32::from_be_bytes` on a 4-byte buffer (bytes most significant
first, two's complement). -/
def i32_from_be_bytes (l : List Nat) : Int :=
  let n : Nat := l.getD 0 0 * 2 ^ 24 + l.getD 1 0 * 2 ^ 16 + l.getD 2 0 * 2 ^ 8 + l.getD 3 0
  if n < 2 ^ 31 then (n : Int) else (n : Int) - 2 ^ 32

/-- Rust `u16::from_be_bytes` on a 2-byte buffer. -/
def u16_from_be_bytes (l : List Nat) : Nat :=
  l.getD 0 0 * 2 ^ 8 + l.getD 1 0

/-- A raw bus operation requested of the I2C transport. -/
inductive BusOp where
  | write (address : Nat) (data : List Nat)
  | read (address : Nat) (len : Nat)
deriving DecidableEq

/-- An externally visible action of the driver, in the order performed. -/
inductive Event where
  | busWrite (address : Nat) (data : List Nat)
  | busRead (address : Nat) (len : Nat)
  | delayNs (ns : Nat)
deriving DecidableEq

/-- The I2C bus handle: an oracle giving, for each bus call (numbered by the
handle's internal call counter) the response — `none` is a bus error, `some
bytes` a success (for a write the list is ignored, for a read it is the data
placed in the caller's buffer).  `calls` is the mock handle's interior state,
advanced by one per bus call. -/
structure EnvI2C where
  resp : Nat → BusOp → Option (List Nat)
  calls : Nat

/-- Source enum `TemperatureUnit` (lib.rs lines 21-25); the Rust default is
`Fahrenheit`. -/
inductive TemperatureUnit where
  | Celsius
  | Fahrenheit
deriving DecidableEq, Repr

/-- Source enum `SoilMoistureSensorError` (error.rs); the payload carried by
the write variant is elided since the driver constructs the variant with the
underlying cause discarded. -/
inductive SoilMoistureSensorError where
  | WriteReadI2CError
  | WriteI2CError
  | ReadI2CError
deriving DecidableEq, Repr

/-- Source struct `SoilSensor<I2C, D>` (lib.rs lines 27-37).  `temp_delay`
and `moisture_delay` are `u32` nanosecond counts and `address` is a `u8` in
the source; they are carried as `Nat` here, the driver never computes on
them beyond the in-range additions of `with_address_pins`. -/
structure SoilSensor (I2C D : Type) where
  i2c : I2C
  delay : D
  unit : TemperatureUnit
  temp_delay : Nat
  moisture_delay : Nat
  address : Nat

/-- Source `SoilSensor::new` (lib.rs lines 86-95). -/
def SoilSensor.new (i2c : I2C) (delay : D) : SoilSensor I2C D :=
  { i2c := i2c, delay := delay, unit := .Fahrenheit,
    temp_delay := 125000, moisture_delay := 5000000, address := 0x36 }

/-- Source `SoilSensor::with_units` (lib.rs lines 103-106). -/
def SoilSensor.with_units (s : SoilSensor I2C D) (unit : TemperatureUnit) :
    SoilSensor I2C D :=
  { s with unit := unit }

/-- Source `SoilSensor::with_address_pins` (lib.rs lines 109-118): reset the
address to `0x36`, then add 1 for pin `a0` and 2 for pin `a1`. -/
def SoilSensor.with_address_pins (s : SoilSensor I2C D) (a0 a1 : Bool) :
    SoilSensor I2C D :=
  let s1 := { s with address := 0x36 }
  let s2 := if a0 then { s1 with address := s1.address + 1 } else s1
  if a1 then { s2 with address := s2.address + 2 } else s2

/-- Source `SoilSensor::with_address` (lib.rs lines 121-124). -/
def SoilSensor.with_address (s : SoilSensor I2C D) (address : Nat) :
    SoilSensor I2C D :=
  { s with address := address }

/-- Source `SoilSensor::with_delay` (lib.rs lines 127-131). -/
def SoilSensor.with_delay (s : SoilSensor I2C D) (temp moisture : Nat) :
    SoilSensor I2C D :=
  { s with temp_delay := temp, moisture_delay := moisture }

/-- Source `SoilSensor::with_temperature_delay` (lib.rs lines 133-136). -/
def SoilSensor.with_temperature_delay (s : SoilSensor I2C D) (temp : Nat) :
    SoilSensor I2C D :=
  { s with temp_delay := temp }

/-- Source `SoilSensor::with_moisture_delay` (lib.rs lines 138-141). -/
def SoilSensor.with_moisture_delay (s : SoilSensor I2C D) (moisture : Nat) :
    SoilSensor I2C D :=
  { s with moisture_delay := moisture }

/-- Source `SoilSensor::with_units_async` (lib.rs lines 44-47). -/
def SoilSensor.with_units_async (s : SoilSensor I2C D) (unit : TemperatureUnit) :
    SoilSensor I2C D :=
  { s with unit := unit }

/-- Source `SoilSensor::with_address_pins_async` (lib.rs lines 50-59). -/
def SoilSensor.with_address_pins_async (s : SoilSensor I2C D) (a0 a1 : Bool) :
    SoilSensor I2C D :=
  let s1 := { s with address := 0x36 }
  let s2 := if a0 then { s1 with address := s1.address + 1 } else s1
  if a1 then { s2 with address := s2.address + 2 } else s2

/-- Source `SoilSensor::with_address_async` (lib.rs lines 62-65). -/
def SoilSensor.with_address_async (s : SoilSensor I2C D) (address : Nat) :
    SoilSensor I2C D :=
  { s with address := address }

/-- Source `SoilSensor::with_delay_async` (lib.rs lines 68-72). -/
def SoilSensor.with_delay_async (s : SoilSensor I2C D) (temp moisture : Nat) :
    SoilSensor I2C D :=
  { s with temp_delay := temp, moisture_delay := moisture }

/-- Source `SoilSensor::with_temperature_delay_async` (lib.rs lines 74-77). -/
def SoilSensor.with_temperature_delay_async (s : SoilSensor I2C D) (temp : Nat) :
    SoilSensor I2C D :=
  { s with temp_delay := temp }

/-- Source `SoilSensor::with_moisture_delay_async` (lib.rs lines 79-82). -/
def SoilSensor.with_moisture_delay_async (s : SoilSensor I2C D) (moisture : Nat) :
    SoilSensor I2C D :=
  { s with moisture_delay := moisture }

/-- Source struct `Reading` (lib.rs lines 144-148). -/
structure Reading where
  temperature : F32
  moisture : Nat
deriving DecidableEq, Repr

/-- The hardware read fills the caller's fixed-size buffer with the bytes
delivered by the bus (each a `u8`); bytes beyond the buffer length are
dropped and, were the oracle to deliver too few, the zero-initialised tail
of the buffer would remain. -/
def fillBuffer (buffer data : List Nat) : List Nat :=
  ((data.map (· % 256)) ++ buffer.drop data.length).take buffer.length

/-- Source `SoilSensor::i2c_read` (lib.rs lines 226-239): write the register
pointer to the device address, mapping failure to `WriteI2CError` and
returning early; then delay `delay_ns`; then read `buffer.length` bytes,
mapping failure to `ReadI2CError`. -/
def SoilSensor.i2c_read (s : SoilSensor EnvI2C D) (bytes buffer : List Nat)
    (delay_ns : Nat) :
    Except SoilMoistureSensorError (List Nat) × List Event × SoilSensor EnvI2C D :=
  let k := s.i2c.calls
  match s.i2c.resp k (.write s.address bytes) with
  | none =>
    (.error .WriteI2CError, [.busWrite s.address bytes],
      { s with i2c := { s.i2c with calls := k + 1 } })
  | some _ =>
    match s.i2c.resp (k + 1) (.read s.address buffer.length) with
    | none =>
      (.error .ReadI2CError,
        [.busWrite s.address bytes, .delayNs delay_ns,
          .busRead s.address buffer.length],
        { s with i2c := { s.i2c with calls := k + 2 } })
    | some data =>
      (.ok (fillBuffer buffer data),
        [.busWrite s.address bytes, .delayNs delay_ns,
          .busRead s.address buffer.length],
        { s with i2c := { s.i2c with calls := k + 2 } })

/-- Source `SoilSensor::temperature` (lib.rs lines 203-211): read registers
`[0x00, 0x04]` into a 4-byte zeroed buffer with the temperature delay,
decode big-endian `i32`, cast to `f32` and convert per the configured
unit. -/
def SoilSensor.temperature (s : SoilSensor EnvI2C D) :
    Except SoilMoistureSensorError F32 × List Event × SoilSensor EnvI2C D :=
  match s.i2c_read [0x00, 0x04] [0, 0, 0, 0] s.temp_delay with
  | (.error e, tr, s1) => (.error e, tr, s1)
  | (.ok buffer, tr, s1) =>
    let raw : F32 := F32.ofInt (i32_from_be_bytes buffer)
    (.ok (match s.unit with
      | .Celsius => F32.mul raw TEMP_C_CONSTANT
      | .Fahrenheit => F32.add (F32.mul raw TEMP_F_CONSTANT) TEMP_F_CONSTANT_SUM),
      tr, s1)

/-- Source `SoilSensor::moisture` (lib.rs lines 213-217): read registers
`[0x0F, 0x10]` into a 2-byte zeroed buffer with the moisture delay and
decode big-endian `u16`. -/
def SoilSensor.moisture (s : SoilSensor EnvI2C D) :
    Except SoilMoistureSensorError Nat × List Event × SoilSensor EnvI2C D :=
  match s.i2c_read [0x0F, 0x10] [0, 0] s.moisture_delay with
  | (.error e, tr, s1) => (.error e, tr, s1)
  | (.ok buffer, tr, s1) => (.ok (u16_from_be_bytes buffer), tr, s1)

/-- Source `SoilSensor::read` (lib.rs lines 219-224): temperature first,
then moisture, each propagating its error with `?`. -/
def SoilSensor.read (s : SoilSensor EnvI2C D) :
    Except SoilMoistureSensorError Reading × List Event × SoilSensor EnvI2C D :=
  match s.temperature with
  | (.error e, tr, s1) => (.error e, tr, s1)
  | (.ok t, tr, s1) =>
    match s1.moisture with
    | (.error e, tr2, s2) => (.error e, tr ++ tr2, s2)
    | (.ok m, tr2, s2) => (.ok ⟨t, m⟩, tr ++ tr2, s2)

/-- Source `SoilSensor::i2c_read_async` (lib.rs lines 180-195), the async
twin of `i2c_read`, transcribed from its own impl block. -/
def SoilSensor.i2c_read_async (s : SoilSensor EnvI2C D) (bytes buffer : List Nat)
    (delay_ns : Nat) :
    Except SoilMoistureSensorError (List Nat) × List Event × SoilSensor EnvI2C D :=
  let k := s.i2c.calls
  match s.i2c.resp k (.write s.address bytes) with
  | none =>
    (.error .WriteI2CError, [.busWrite s.address bytes],
      { s with i2c := { s.i2c with calls := k + 1 } })
  | some _ =>
    match s.i2c.resp (k + 1) (.read s.address buffer.length) with
    | none =>
      (.error .ReadI2CError,
        [.busWrite s.address bytes, .delayNs delay_ns,
          .busRead s.address buffer.length],
        { s with i2c := { s.i2c with calls := k + 2 } })
    | some data =>
      (.ok (fillBuffer buffer data),
        [.busWrite s.address bytes, .delayNs delay_ns,
          .busRead s.address buffer.length],
        { s with i2c := { s.i2c with calls := k + 2 } })

/-- Source `SoilSensor::temperature_async` (lib.rs lines 155-164). -/
def SoilSensor.temperature_async (s : SoilSensor EnvI2C D) :
    Except SoilMoistureSensorError F32 × List Event × SoilSensor EnvI2C D :=
  match s.i2c_read_async [0x00, 0x04] [0, 0, 0, 0] s.temp_delay with
  | (.error e, tr, s1) => (.error e, tr, s1)
  | (.ok buffer, tr, s1) =>
    let raw : F32 := F32.ofInt (i32_from_be_bytes buffer)
    (.ok (match s.unit with
      | .Celsius => F32.mul raw TEMP_C_CONSTANT
      | .Fahrenheit => F32.add (F32.mul raw TEMP_F_CONSTANT) TEMP_F_CONSTANT_SUM),
      tr, s1)

/-- Source `SoilSensor::moisture_async` (lib.rs lines 166-171). -/
def SoilSensor.moisture_async (s : SoilSensor EnvI2C D) :
    Except SoilMoistureSensorError Nat × List Event × SoilSensor EnvI2C D :=
  match s.i2c_read_async [0x0F, 0x10] [0, 0] s.moisture_delay with
  | (.error e, tr, s1) => (.error e, tr, s1)
  | (.ok buffer, tr, s1) => (.ok (u16_from_be_bytes buffer), tr, s1)

/-- Source `SoilSensor::read_async` (lib.rs lines 173-178). -/
def SoilSensor.read_async (s : SoilSensor EnvI2C D) :
    Except SoilMoistureSensorError Reading × List Event × SoilSensor EnvI2C D :=
  match s.temperature_async with
  | (.error e, tr, s1) => (.error e, tr, s1)
  | (.ok t, tr, s1) =>
    match s1.moisture_async with
    | (.error e, tr2, s2) => (.error e, tr ++ tr2, s2)
    | (.ok m, tr2, s2) => (.ok ⟨t, m⟩, tr ++ tr2, s2)

/-! ### Helper equations for the register-read primitive -/

/-- When the register-pointer write fails, `i2c_read` returns the write
error, a trace holding the single attempted write, and the driver with the
bus call counter advanced once. -/
theorem i2c_read_eq_writeFail {D : Type} (s : SoilSensor EnvI2C D)
    (bytes buffer : List Nat) (d : Nat)
    (h : s.i2c.resp s.i2c.calls (BusOp.write s.address bytes) = none) :
    s.i2c_read bytes buffer d =
      (Except.error SoilMoistureSensorError.WriteI2CError,
        [Event.busWrite s.address bytes],
        { s with i2c := { s.i2c with calls := s.i2c.calls + 1 } }) := by
  simp [SoilSensor.i2c_read, h]

/-- When the write succeeds and the data read fails, `i2c_read` returns the
read error after the write-delay-read trace. -/
theorem i2c_read_eq_readFail {D : Type} (s : SoilSensor EnvI2C D)
    (bytes buffer : List Nat) (d : Nat) (w : List Nat)
    (hw : s.i2c.resp s.i2c.calls (BusOp.write s.address bytes) = some w)
    (hr : s.i2c.resp (s.i2c.calls + 1) (BusOp.read s.address buffer.length) = none) :
    s.i2c_read bytes buffer d =
      (Except.error SoilMoistureSensorError.ReadI2CError,
        [Event.busWrite s.address bytes, Event.delayNs d,
          Event.busRead s.address buffer.length],
        { s with i2c := { s.i2c with calls := s.i2c.calls + 2 } }) := by
  simp [SoilSensor.i2c_read, hw, hr]

/-- When both bus phases succeed, `i2c_read` returns the filled buffer after
the write-delay-read trace. -/
theorem i2c_read_eq_ok {D : Type} (s : SoilSensor EnvI2C D)
    (bytes buffer : List Nat) (d : Nat) (w data : List Nat)
    (hw : s.i2c.resp s.i2c.calls (BusOp.write s.address bytes) = some w)
    (hr : s.i2c.resp (s.i2c.calls + 1) (BusOp.read s.address buffer.length) = some data) :
    s.i2c_read bytes buffer d =
      (Except.ok (fillBuffer buffer data),
        [Event.busWrite s.address bytes, Event.delayNs d,
          Event.busRead s.address buffer.length],
        { s with i2c := { s.i2c with calls := s.i2c.calls + 2 } }) := by
  simp [SoilSensor.i2c_read, hw, hr]

/-- The async register-read primitive is definitionally the blocking one. -/
theorem i2c_read_async_eq {D : Type} (s : SoilSensor EnvI2C D)
    (bytes buffer : List Nat) (d : Nat) :
    s.i2c_read_async bytes buffer d = s.i2c_read bytes buffer d := rfl

/-- The async temperature operation is definitionally the blocking one. -/
theorem temperature_async_eq {D : Type} (s : SoilSensor EnvI2C D) :
    s.temperature_async = s.temperature := rfl

/-- The async moisture operation is definitionally the blocking one. -/
theorem moisture_async_eq {D : Type} (s : SoilSensor EnvI2C D) :
    s.moisture_async = s.moisture := rfl

/-- The async combined read is definitionally the blocking one. -/
theorem read_async_eq {D : Type} (s : SoilSensor EnvI2C D) :
    s.read_async = s.read := rfl

/-- The register-read primitive is total: its outcome is the write error,
the read error, or a successful buffer. -/
theorem i2c_read_result {D : Type} (s : SoilSensor EnvI2C D)
    (bytes buffer : List Nat) (d : Nat) :
    (s.i2c_read bytes buffer d).1 = Except.error SoilMoistureSensorError.WriteI2CError ∨
    (s.i2c_read bytes buffer d).1 = Except.error SoilMoistureSensorError.ReadI2CError ∨
    ∃ out, (s.i2c_read bytes buffer d).1 = Except.ok out := by
  rcases hw : s.i2c.resp s.i2c.calls (BusOp.write s.address bytes) with _ | w
  · rw [i2c_read_eq_writeFail s bytes buffer d hw]
    exact Or.inl rfl
  · rcases hr : s.i2c.resp (s.i2c.calls + 1) (BusOp.read s.address buffer.length) with _ | data
    · rw [i2c_read_eq_readFail s bytes buffer d w hw hr]
      exact Or.inr (Or.inl rfl)
    · rw [i2c_read_eq_ok s bytes buffer d w data hw hr]
      exact Or.inr (Or.inr ⟨fillBuffer buffer data, rfl⟩)

/-- The register-read primitive changes nothing of the driver beyond the bus
handle's call counter. -/
theorem i2c_read_config {D : Type} (s : SoilSensor EnvI2C D)
    (bytes buffer : List Nat) (d : Nat) :
    (s.i2c_read bytes buffer d).2.2.unit = s.unit ∧
    (s.i2c_read bytes buffer d).2.2.address = s.address ∧
    (s.i2c_read bytes buffer d).2.2.temp_delay = s.temp_delay ∧
    (s.i2c_read bytes buffer d).2.2.moisture_delay = s.moisture_delay ∧
    (s.i2c_read bytes buffer d).2.2.delay = s.delay ∧
    (s.i2c_read bytes buffer d).2.2.i2c.resp = s.i2c.resp := by
  rcases hw : s.i2c.resp s.i2c.calls (BusOp.write s.address bytes) with _ | w
  · rw [i2c_read_eq_writeFail s bytes buffer d hw]
    exact ⟨rfl, rfl, rfl, rfl, rfl, rfl⟩
  · rcases hr : s.i2c.resp (s.i2c.calls + 1) (BusOp.read s.address buffer.length) with _ | data
    · rw [i2c_read_eq_readFail s bytes buffer d w hw hr]
      exact ⟨rfl, rfl, rfl, rfl, rfl, rfl⟩
    · rw [i2c_read_eq_ok s bytes buffer d w data hw hr]
      exact ⟨rfl, rfl, rfl, rfl, rfl, rfl⟩

/-- The temperature operation either propagates an `i2c_read` outcome whose
result, trace and final state it shares, or succeeds; in every case the
configuration fields survive. -/
theorem temperature_config {D : Type} (s : SoilSensor EnvI2C D) :
    s.temperature.2.2.unit = s.unit ∧
    s.temperature.2.2.address = s.address ∧
    s.temperature.2.2.temp_delay = s.temp_delay ∧
    s.temperature.2.2.moisture_delay = s.moisture_delay ∧
    s.temperature.2.2.delay = s.delay ∧
    s.temperature.2.2.i2c.resp = s.i2c.resp := by
  have h := i2c_read_config s [0x00, 0x04] [0, 0, 0, 0] s.temp_delay
  rcases he : s.i2c_read [0x00, 0x04] [0, 0, 0, 0] s.temp_delay with ⟨res, tr, s1⟩
  rw [he] at h
  rcases res with e | buffer <;> simp [SoilSensor.temperature, he] <;> exact h

/-- The moisture operation preserves the configuration fields. -/
theorem moisture_config {D : Type} (s : SoilSensor EnvI2C D) :
    s.moisture.2.2.unit = s.unit ∧
    s.moisture.2.2.address = s.address ∧
    s.moisture.2.2.temp_delay = s.temp_delay ∧
    s.moisture.2.2.moisture_delay = s.moisture_delay ∧
    s.moisture.2.2.delay = s.delay ∧
    s.moisture.2.2.i2c.resp = s.i2c.resp := by
  have h := i2c_read_config s [0x0F, 0x10] [0, 0] s.moisture_delay
  rcases he : s.i2c_read [0x0F, 0x10] [0, 0] s.moisture_delay with ⟨res, tr, s1⟩
  rw [he] at h
  rcases res with e | buffer <;> simp [SoilSensor.moisture, he] <;> exact h

/-- The combined read preserves the configuration fields. -/
theorem read_config {D : Type} (s : SoilSensor EnvI2C D) :
    s.read.2.2.unit = s.unit ∧
    s.read.2.2.address = s.address ∧
    s.read.2.2.temp_delay = s.temp_delay ∧
    s.read.2.2.moisture_delay = s.moisture_delay ∧
    s.read.2.2.delay = s.delay ∧
    s.read.2.2.i2c.resp = s.i2c.resp := by
  have ht := temperature_config s
  rcases he : s.temperature with ⟨res, tr, s1⟩
  rw [he] at ht
  rcases res with e | t
  · simp [SoilSensor.read, he]
    exact ht
  · have hm := moisture_config s1
    rcases he2 : s1.moisture with ⟨res2, tr2, s2⟩
    rw [he2] at hm
    rcases res2 with e2 | m <;> simp [SoilSensor.read, he, he2] <;>
      exact ⟨hm.1.trans ht.1, hm.2.1.trans ht.2.1, hm.2.2.1.trans ht.2.2.1,
        hm.2.2.2.1.trans ht.2.2.2.1, hm.2.2.2.2.1.trans ht.2.2.2.2.1,
        hm.2.2.2.2.2.trans ht.2.2.2.2.2⟩

/-! ### Configuration claims -/

/-- Claim C7: for all booleans `a0`, `a1` and every driver state — including
one whose address was previously set by `with_address` — `with_address_pins
a0 a1` sets the address to exactly `0x36 + (1 if a0) + (2 if a1)`,
independent of the prior address value; in particular
`with_address_pins true true` always yields `0x39`. -/
theorem address_pins_override {I2C D : Type} (s : SoilSensor I2C D)
    (a0 a1 : Bool) (x : Nat) :
    (s.with_address_pins a0 a1).address =
      0x36 + (if a0 then 1 else 0) + (if a1 then 2 else 0) ∧
    ((s.with_address x).with_address_pins a0 a1).address =
      0x36 + (if a0 then 1 else 0) + (if a1 then 2 else 0) ∧
    ((s.with_address x).with_address_pins true true).address = 0x39 := by
  cases a0 <;> cases a1 <;>
    simp [SoilSensor.with_address_pins, SoilSensor.with_address]

/-- Claim C8: every blocking configuration setter returns a driver identical
to its input except in the field(s) it names — the bus handle, the delay
handle and all other configuration fields are unchanged, for every input
driver state and argument. -/
theorem setters_frame {I2C D : Type} (s : SoilSensor I2C D)
    (u : TemperatureUnit) (addr t mo : Nat) (a0 a1 : Bool) :
    (s.with_units u).i2c = s.i2c ∧ (s.with_units u).delay = s.delay ∧
    (s.with_units u).address = s.address ∧
    (s.with_units u).temp_delay = s.temp_delay ∧
    (s.with_units u).moisture_delay = s.moisture_delay ∧
    (s.with_units u).unit = u ∧
    (s.with_address addr).i2c = s.i2c ∧ (s.with_address addr).delay = s.delay ∧
    (s.with_address addr).unit = s.unit ∧
    (s.with_address addr).temp_delay = s.temp_delay ∧
    (s.with_address addr).moisture_delay = s.moisture_delay ∧
    (s.with_address addr).address = addr ∧
    (s.with_address_pins a0 a1).i2c = s.i2c ∧
    (s.with_address_pins a0 a1).delay = s.delay ∧
    (s.with_address_pins a0 a1).unit = s.unit ∧
    (s.with_address_pins a0 a1).temp_delay = s.temp_delay ∧
    (s.with_address_pins a0 a1).moisture_delay = s.moisture_delay ∧
    (s.with_temperature_delay t).i2c = s.i2c ∧
    (s.with_temperature_delay t).delay = s.delay ∧
    (s.with_temperature_delay t).unit = s.unit ∧
    (s.with_temperature_delay t).address = s.address ∧
    (s.with_temperature_delay t).moisture_delay = s.moisture_delay ∧
    (s.with_temperature_delay t).temp_delay = t ∧
    (s.with_moisture_delay mo).i2c = s.i2c ∧
    (s.with_moisture_delay mo).delay = s.delay ∧
    (s.with_moisture_delay mo).unit = s.unit ∧
    (s.with_moisture_delay mo).address = s.address ∧
    (s.with_moisture_delay mo).temp_delay = s.temp_delay ∧
    (s.with_moisture_delay mo).moisture_delay = mo ∧
    (s.with_delay t mo).i2c = s.i2c ∧ (s.with_delay t mo).delay = s.delay ∧
    (s.with_delay t mo).unit = s.unit ∧
    (s.with_delay t mo).address = s.address ∧
    (s.with_delay t mo).temp_delay = t ∧
    (s.with_delay t mo).moisture_delay = mo := by
  cases a0 <;> cases a1 <;>
    simp [SoilSensor.with_units, SoilSensor.with_address,
      SoilSensor.with_address_pins, SoilSensor.with_temperature_delay,
      SoilSensor.with_moisture_delay, SoilSensor.with_delay]

/-- Claim C9: the blocking and async variants of every operation implement
the same observable contract — given the same driver state and the same
bus/delay responses they produce the same bus calls in the same order with
the same bytes, the same delay requests and the same result, and each async
configuration setter agrees with its blocking twin. -/
theorem async_blocking_equivalence {D : Type} (s : SoilSensor EnvI2C D) :
    s.temperature_async = s.temperature ∧
    s.moisture_async = s.moisture ∧
    s.read_async = s.read ∧
    (∀ bytes buffer d, s.i2c_read_async bytes buffer d = s.i2c_read bytes buffer d) ∧
    (∀ (I2C D2 : Type) (s2 : SoilSensor I2C D2) (u : TemperatureUnit)
        (addr t mo : Nat) (a0 a1 : Bool),
      s2.with_units_async u = s2.with_units u ∧
      s2.with_address_async addr = s2.with_address addr ∧
      s2.with_address_pins_async a0 a1 = s2.with_address_pins a0 a1 ∧
      s2.with_delay_async t mo = s2.with_delay t mo ∧
      s2.with_temperature_delay_async t = s2.with_temperature_delay t ∧
      s2.with_moisture_delay_async mo = s2.with_moisture_delay mo) :=
  ⟨rfl, rfl, rfl, fun _ _ _ => rfl,
    fun _ _ _ _ _ _ _ _ _ => ⟨rfl, rfl, rfl, rfl, rfl, rfl⟩⟩

/-- Claim C10: every read operation, blocking or async, leaves the driver's
configuration unchanged — the unit, address, temperature delay and moisture
delay fields have the same values after the call as before, whether the call
succeeded or failed (the statement quantifies over every bus oracle, so over
every success/failure pattern). -/
theorem reads_preserve_configuration {D : Type} (s : SoilSensor EnvI2C D) :
    (s.temperature.2.2.unit = s.unit ∧ s.temperature.2.2.address = s.address ∧
      s.temperature.2.2.temp_delay = s.temp_delay ∧
      s.temperature.2.2.moisture_delay = s.moisture_delay) ∧
    (s.moisture.2.2.unit = s.unit ∧ s.moisture.2.2.address = s.address ∧
      s.moisture.2.2.temp_delay = s.temp_delay ∧
      s.moisture.2.2.moisture_delay = s.moisture_delay) ∧
    (s.read.2.2.unit = s.unit ∧ s.read.2.2.address = s.address ∧
      s.read.2.2.temp_delay = s.temp_delay ∧
      s.read.2.2.moisture_delay = s.moisture_delay) ∧
    (s.temperature_async.2.2.unit = s.unit ∧
      s.temperature_async.2.2.address = s.address ∧
      s.temperature_async.2.2.temp_delay = s.temp_delay ∧
      s.temperature_async.2.2.moisture_delay = s.moisture_delay) ∧
    (s.moisture_async.2.2.unit = s.unit ∧
      s.moisture_async.2.2.address = s.address ∧
      s.moisture_async.2.2.temp_delay = s.temp_delay ∧
      s.moisture_async.2.2.moisture_delay = s.moisture_delay) ∧
    (s.read_async.2.2.unit = s.unit ∧ s.read_async.2.2.address = s.address ∧
      s.read_async.2.2.temp_delay = s.temp_delay ∧
      s.read_async.2.2.moisture_delay = s.moisture_delay) := by
  have ht := temperature_config s
  have hm := moisture_config s
  have hr := read_config s
  rw [temperature_async_eq, moisture_async_eq, read_async_eq]
  exact ⟨⟨ht.1, ht.2.1, ht.2.2.1, ht.2.2.2.1⟩,
    ⟨hm.1, hm.2.1, hm.2.2.1, hm.2.2.2.1⟩,
    ⟨hr.1, hr.2.1, hr.2.2.1, hr.2.2.2.1⟩,
    ⟨ht.1, ht.2.1, ht.2.2.1, ht.2.2.2.1⟩,
    ⟨hm.1, hm.2.1, hm.2.2.1, hm.2.2.2.1⟩,
    ⟨hr.1, hr.2.1, hr.2.2.1, hr.2.2.2.1⟩⟩

/-! ### Read-protocol claims -/

/-- Claim C1: for every 4-byte response, `temperature` (and
`temperature_async`) writes the register pointer `[0x00, 0x04]`, reads 4
bytes, decodes them as a signed 32-bit big-endian integer cast to `f32`, and
returns `raw * 0.000015258789` under Celsius and
`raw * (0.000015258789 * 1.8) + 32.0` under Fahrenheit. -/
theorem temperature_register_read_and_conversion {D : Type}
    (s : SoilSensor EnvI2C D) (b0 b1 b2 b3 : Nat) (w : List Nat)
    (hw : s.i2c.resp s.i2c.calls (BusOp.write s.address [0x00, 0x04]) = some w)
    (hr : s.i2c.resp (s.i2c.calls + 1) (BusOp.read s.address 4) =
      some [b0, b1, b2, b3])
    (h0 : b0 < 256) (h1 : b1 < 256) (h2 : b2 < 256) (h3 : b3 < 256) :
    s.temperature.2.1 = [Event.busWrite s.address [0x00, 0x04],
      Event.delayNs s.temp_delay, Event.busRead s.address 4] ∧
    s.temperature_async.2.1 = [Event.busWrite s.address [0x00, 0x04],
      Event.delayNs s.temp_delay, Event.busRead s.address 4] ∧
    (s.unit = TemperatureUnit.Celsius →
      s.temperature.1 = Except.ok
        (F32.mul (F32.ofInt (i32_from_be_bytes [b0, b1, b2, b3]))
          (f32lit 15258789 (10 ^ 12))) ∧
      s.temperature_async.1 = Except.ok
        (F32.mul (F32.ofInt (i32_from_be_bytes [b0, b1, b2, b3]))
          (f32lit 15258789 (10 ^ 12)))) ∧
    (s.unit = TemperatureUnit.Fahrenheit →
      s.temperature.1 = Except.ok
        (F32.add (F32.mul (F32.ofInt (i32_from_be_bytes [b0, b1, b2, b3]))
          (F32.mul (f32lit 15258789 (10 ^ 12)) (f32lit 18 10))) (f32lit 32 1)) ∧
      s.temperature_async.1 = Except.ok
        (F32.add (F32.mul (F32.ofInt (i32_from_be_bytes [b0, b1, b2, b3]))
          (F32.mul (f32lit 15258789 (10 ^ 12)) (f32lit 18 10))) (f32lit 32 1))) := by
  have hr4 : s.i2c.resp (s.i2c.calls + 1)
      (BusOp.read s.address (List.length [0, 0, 0, 0])) = some [b0, b1, b2, b3] := by
    simpa using hr
  have he := i2c_read_eq_ok s [0x00, 0x04] [0, 0, 0, 0] s.temp_delay w
    [b0, b1, b2, b3] hw hr4
  have hf : fillBuffer [0, 0, 0, 0] [b0, b1, b2, b3] = [b0, b1, b2, b3] := by
    simp [fillBuffer, Nat.mod_eq_of_lt h0, Nat.mod_eq_of_lt h1,
      Nat.mod_eq_of_lt h2, Nat.mod_eq_of_lt h3]
  rw [hf] at he
  refine ⟨?_, ?_, fun hu => ⟨?_, ?_⟩, fun hu => ⟨?_, ?_⟩⟩ <;>
    simp [SoilSensor.temperature, temperature_async_eq, he] <;>
    simp [hu, TEMP_C_CONSTANT, TEMP_F_CONSTANT, TEMP_F_CONSTANT_SUM]

/-- Bus oracle answering the temperature register request with the bytes
`[0x00, 0x00, 0x27, 0x10]` (decimal 10000). -/
def respTempOk : Nat → BusOp → Option (List Nat) := fun k _ =>
  if k = 0 then some [] else some [0, 0, 39, 16]

/-- A driver configured for Celsius over `respTempOk`. -/
def sensorTempC : SoilSensor EnvI2C Unit :=
  (SoilSensor.new ⟨respTempOk, 0⟩ ()).with_units TemperatureUnit.Celsius

theorem temperature_register_read_and_conversion_witness :
    sensorTempC.temperature.1 = Except.ok
      (F32.mul (F32.ofInt (i32_from_be_bytes [0, 0, 39, 16]))
        (f32lit 15258789 (10 ^ 12))) :=
  ((temperature_register_read_and_conversion sensorTempC 0 0 39 16 []
    rfl rfl (by decide) (by decide) (by decide) (by decide)).2.2.1 rfl).1

/-- Claim C6: `moisture` (and `moisture_async`) writes the register pointer
`[0x0F, 0x10]`, reads exactly 2 bytes and returns them as a big-endian
unsigned 16-bit integer with no conversion applied. -/
theorem moisture_register_read_decoding {D : Type}
    (s : SoilSensor EnvI2C D) (b0 b1 : Nat) (w : List Nat)
    (hw : s.i2c.resp s.i2c.calls (BusOp.write s.address [0x0F, 0x10]) = some w)
    (hr : s.i2c.resp (s.i2c.calls + 1) (BusOp.read s.address 2) = some [b0, b1])
    (h0 : b0 < 256) (h1 : b1 < 256) :
    s.moisture.2.1 = [Event.busWrite s.address [0x0F, 0x10],
      Event.delayNs s.moisture_delay, Event.busRead s.address 2] ∧
    s.moisture_async.2.1 = [Event.busWrite s.address [0x0F, 0x10],
      Event.delayNs s.moisture_delay, Event.busRead s.address 2] ∧
    s.moisture.1 = Except.ok (b0 * 2 ^ 8 + b1) ∧
    s.moisture_async.1 = Except.ok (b0 * 2 ^ 8 + b1) := by
  have hr2 : s.i2c.resp (s.i2c.calls + 1)
      (BusOp.read s.address (List.length [0, 0])) = some [b0, b1] := by
    simpa using hr
  have he := i2c_read_eq_ok s [0x0F, 0x10] [0, 0] s.moisture_delay w [b0, b1] hw hr2
  have hf : fillBuffer [0, 0] [b0, b1] = [b0, b1] := by
    simp [fillBuffer, Nat.mod_eq_of_lt h0, Nat.mod_eq_of_lt h1]
  rw [hf] at he
  refine ⟨?_, ?_, ?_, ?_⟩ <;>
    simp [SoilSensor.moisture, moisture_async_eq, he, u16_from_be_bytes]

/-- Bus oracle answering the moisture register request with bytes
`[0x03, 0xE8]` (decimal 1000). -/
def respMoistOk : Nat → BusOp → Option (List Nat) := fun k _ =>
  if k = 0 then some [] else some [3, 232]

/-- A default driver over `respMoistOk`. -/
def sensorMoist : SoilSensor EnvI2C Unit := SoilSensor.new ⟨respMoistOk, 0⟩ ()

theorem moisture_register_read_decoding_witness :
    sensorMoist.moisture.1 = Except.ok 1000 := by
  have h := (moisture_register_read_decoding sensorMoist 3 232 []
    rfl rfl (by decide) (by decide)).2.2.1
  simpa using h

/-- The temperature operation never yields the composite write-read error. -/
theorem temperature_not_wr {D : Type} (s : SoilSensor EnvI2C D) :
    s.temperature.1 ≠ Except.error SoilMoistureSensorError.WriteReadI2CError := by
  have h := i2c_read_result s [0x00, 0x04] [0, 0, 0, 0] s.temp_delay
  rcases he : s.i2c_read [0x00, 0x04] [0, 0, 0, 0] s.temp_delay with ⟨res, tr, s1⟩
  rw [he] at h
  rcases res with e | buffer
  · rcases h with h | h | ⟨out, h⟩ <;> simp at h <;>
      simp [SoilSensor.temperature, he, h]
  · simp [SoilSensor.temperature, he]

/-- The moisture operation never yields the composite write-read error. -/
theorem moisture_not_wr {D : Type} (s : SoilSensor EnvI2C D) :
    s.moisture.1 ≠ Except.error SoilMoistureSensorError.WriteReadI2CError := by
  have h := i2c_read_result s [0x0F, 0x10] [0, 0] s.moisture_delay
  rcases he : s.i2c_read [0x0F, 0x10] [0, 0] s.moisture_delay with ⟨res, tr, s1⟩
  rw [he] at h
  rcases res with e | buffer
  · rcases h with h | h | ⟨out, h⟩ <;> simp at h <;>
      simp [SoilSensor.moisture, he, h]
  · simp [SoilSensor.moisture, he]

/-- The combined read never yields the composite write-read error. -/
theorem read_not_wr {D : Type} (s : SoilSensor EnvI2C D) :
    s.read.1 ≠ Except.error SoilMoistureSensorError.WriteReadI2CError := by
  have ht := temperature_not_wr s
  rcases he : s.temperature with ⟨res, tr, s1⟩
  rw [he] at ht
  rcases res with e | t
  · simp at ht
    simp [SoilSensor.read, he, ht]
  · have hm := moisture_not_wr s1
    rcases he2 : s1.moisture with ⟨res2, tr2, s2⟩
    rw [he2] at hm
    rcases res2 with e2 | m
    · simp at hm
      simp [SoilSensor.read, he, he2, hm]
    · simp [SoilSensor.read, he, he2]

/-- Claim C2: the error of a register read is the write-phase kind exactly
when the register-pointer write fails (in which case no bus read is
attempted), the read-phase kind exactly when the write succeeds and the
read fails, and the composite write-read kind is produced by no operation. -/
theorem error_kind_attribution {D : Type} (s : SoilSensor EnvI2C D)
    (bytes buffer : List Nat) (d : Nat) :
    (s.i2c.resp s.i2c.calls (BusOp.write s.address bytes) = none →
      (s.i2c_read bytes buffer d).1 =
        Except.error SoilMoistureSensorError.WriteI2CError ∧
      ∀ a n, Event.busRead a n ∉ (s.i2c_read bytes buffer d).2.1) ∧
    (∀ w, s.i2c.resp s.i2c.calls (BusOp.write s.address bytes) = some w →
      (s.i2c_read bytes buffer d).1 ≠
        Except.error SoilMoistureSensorError.WriteI2CError ∧
      (s.i2c.resp (s.i2c.calls + 1) (BusOp.read s.address buffer.length) = none →
        (s.i2c_read bytes buffer d).1 =
          Except.error SoilMoistureSensorError.ReadI2CError) ∧
      (∀ data, s.i2c.resp (s.i2c.calls + 1)
          (BusOp.read s.address buffer.length) = some data →
        (s.i2c_read bytes buffer d).1 = Except.ok (fillBuffer buffer data))) ∧
    (s.i2c_read bytes buffer d).1 ≠
      Except.error SoilMoistureSensorError.WriteReadI2CError ∧
    (s.i2c_read_async bytes buffer d).1 ≠
      Except.error SoilMoistureSensorError.WriteReadI2CError ∧
    s.temperature.1 ≠ Except.error SoilMoistureSensorError.WriteReadI2CError ∧
    s.moisture.1 ≠ Except.error SoilMoistureSensorError.WriteReadI2CError ∧
    s.read.1 ≠ Except.error SoilMoistureSensorError.WriteReadI2CError ∧
    s.temperature_async.1 ≠ Except.error SoilMoistureSensorError.WriteReadI2CError ∧
    s.moisture_async.1 ≠ Except.error SoilMoistureSensorError.WriteReadI2CError ∧
    s.read_async.1 ≠ Except.error SoilMoistureSensorError.WriteReadI2CError := by
  refine ⟨?_, ?_, ?_, ?_, temperature_not_wr s, moisture_not_wr s, read_not_wr s,
    ?_, ?_, ?_⟩
  · intro h
    rw [i2c_read_eq_writeFail s bytes buffer d h]
    exact ⟨rfl, by intro a n; simp⟩
  · intro w hw
    refine ⟨?_, ?_, ?_⟩
    · rcases hr : s.i2c.resp (s.i2c.calls + 1) (BusOp.read s.address buffer.length)
        with _ | data
      · rw [i2c_read_eq_readFail s bytes buffer d w hw hr]
        simp
      · rw [i2c_read_eq_ok s bytes buffer d w data hw hr]
        simp
    · intro hr
      rw [i2c_read_eq_readFail s bytes buffer d w hw hr]
    · intro data hr
      rw [i2c_read_eq_ok s bytes buffer d w data hw hr]
  · rcases i2c_read_result s bytes buffer d with h | h | ⟨out, h⟩ <;> simp [h]
  · rw [i2c_read_async_eq]
    rcases i2c_read_result s bytes buffer d with h | h | ⟨out, h⟩ <;> simp [h]
  · rw [temperature_async_eq]
    exact temperature_not_wr s
  · rw [moisture_async_eq]
    exact moisture_not_wr s
  · rw [read_async_eq]
    exact read_not_wr s

/-- A bus oracle on which every call fails. -/
def envAllFail : EnvI2C := ⟨fun _ _ => none, 0⟩

/-- A default driver over the always-failing bus. -/
def sensorWFail : SoilSensor EnvI2C Unit := SoilSensor.new envAllFail ()

/-- A bus oracle accepting the first (write) call and failing afterwards. -/
def respRFail : Nat → BusOp → Option (List Nat) := fun k _ =>
  if k = 0 then some [] else none

/-- A default driver whose bus accepts writes and fails reads. -/
def sensorRFail : SoilSensor EnvI2C Unit := SoilSensor.new ⟨respRFail, 0⟩ ()

theorem error_kind_attribution_witness :
    (sensorWFail.i2c_read [0x00, 0x04] [0, 0, 0, 0] 7).1 =
      Except.error SoilMoistureSensorError.WriteI2CError ∧
    (sensorRFail.i2c_read [0x00, 0x04] [0, 0, 0, 0] 7).1 =
      Except.error SoilMoistureSensorError.ReadI2CError :=
  ⟨((error_kind_attribution sensorWFail [0x00, 0x04] [0, 0, 0, 0] 7).1 rfl).1,
    ((error_kind_attribution sensorRFail [0x00, 0x04] [0, 0, 0, 0] 7).2.1
      [] rfl).2.1 rfl⟩

/-- Claim C3: if the temperature read inside `read` (or `read_async`) fails,
the whole read returns that error with exactly the temperature transaction's
trace and state — no moisture register write, delay, or read occurs. -/
theorem read_short_circuits_on_temperature_error {D : Type}
    (s : SoilSensor EnvI2C D) (e : SoilMoistureSensorError)
    (h : s.temperature.1 = Except.error e) :
    s.read = (Except.error e, s.temperature.2.1, s.temperature.2.2) ∧
    Event.busWrite s.address [0x0F, 0x10] ∉ s.read.2.1 ∧
    Event.busRead s.address 2 ∉ s.read.2.1 ∧
    s.read_async =
      (Except.error e, s.temperature_async.2.1, s.temperature_async.2.2) := by
  rcases hw : s.i2c.resp s.i2c.calls (BusOp.write s.address [0x00, 0x04])
    with _ | w
  · have he := i2c_read_eq_writeFail s [0x00, 0x04] [0, 0, 0, 0] s.temp_delay hw
    have htemp : s.temperature =
        (Except.error SoilMoistureSensorError.WriteI2CError,
          [Event.busWrite s.address [0x00, 0x04]],
          { s with i2c := { s.i2c with calls := s.i2c.calls + 1 } }) := by
      simp [SoilSensor.temperature, he]
    rw [htemp] at h
    simp at h
    subst h
    rw [read_async_eq, temperature_async_eq]
    refine ⟨?_, ?_, ?_, ?_⟩ <;> simp [SoilSensor.read, htemp]
  · rcases hr : s.i2c.resp (s.i2c.calls + 1) (BusOp.read s.address 4)
      with _ | data
    · have hr4 : s.i2c.resp (s.i2c.calls + 1)
          (BusOp.read s.address (List.length [0, 0, 0, 0])) = none := by
        simpa using hr
      have he := i2c_read_eq_readFail s [0x00, 0x04] [0, 0, 0, 0] s.temp_delay
        w hw hr4
      have htemp : s.temperature =
          (Except.error SoilMoistureSensorError.ReadI2CError,
            [Event.busWrite s.address [0x00, 0x04], Event.delayNs s.temp_delay,
              Event.busRead s.address 4],
            { s with i2c := { s.i2c with calls := s.i2c.calls + 2 } }) := by
        simp [SoilSensor.temperature, he]
      rw [htemp] at h
      simp at h
      subst h
      rw [read_async_eq, temperature_async_eq]
      refine ⟨?_, ?_, ?_, ?_⟩ <;> simp [SoilSensor.read, htemp]
    · have hr4 : s.i2c.resp (s.i2c.calls + 1)
          (BusOp.read s.address (List.length [0, 0, 0, 0])) = some data := by
        simpa using hr
      have he := i2c_read_eq_ok s [0x00, 0x04] [0, 0, 0, 0] s.temp_delay
        w data hw hr4
      rw [show s.temperature.1 = Except.ok (match s.unit with
          | TemperatureUnit.Celsius =>
            F32.mul (F32.ofInt (i32_from_be_bytes (fillBuffer [0, 0, 0, 0] data)))
              TEMP_C_CONSTANT
          | TemperatureUnit.Fahrenheit =>
            F32.add (F32.mul
              (F32.ofInt (i32_from_be_bytes (fillBuffer [0, 0, 0, 0] data)))
              TEMP_F_CONSTANT) TEMP_F_CONSTANT_SUM) from by
        simp [SoilSensor.temperature, he]] at h
      exact absurd h (by simp)

theorem read_short_circuits_on_temperature_error_witness :
    sensorWFail.read = (Except.error SoilMoistureSensorError.WriteI2CError,
      sensorWFail.temperature.2.1, sensorWFail.temperature.2.2) :=
  (read_short_circuits_on_temperature_error sensorWFail
    SoilMoistureSensorError.WriteI2CError rfl).1

/-- A successful temperature read leaves exactly the write-delay-read trace
with the configured temperature delay. -/
theorem temperature_success_shape {D : Type} (s : SoilSensor EnvI2C D)
    (v : F32) (h : s.temperature.1 = Except.ok v) :
    s.temperature.2.1 = [Event.busWrite s.address [0x00, 0x04],
      Event.delayNs s.temp_delay, Event.busRead s.address 4] := by
  rcases hw : s.i2c.resp s.i2c.calls (BusOp.write s.address [0x00, 0x04])
    with _ | w
  · have he := i2c_read_eq_writeFail s [0x00, 0x04] [0, 0, 0, 0] s.temp_delay hw
    rw [show s.temperature.1 =
        Except.error SoilMoistureSensorError.WriteI2CError from by
      simp [SoilSensor.temperature, he]] at h
    exact absurd h (by simp)
  · rcases hr : s.i2c.resp (s.i2c.calls + 1) (BusOp.read s.address 4)
      with _ | data
    · have hr4 : s.i2c.resp (s.i2c.calls + 1)
          (BusOp.read s.address (List.length [0, 0, 0, 0])) = none := by
        simpa using hr
      have he := i2c_read_eq_readFail s [0x00, 0x04] [0, 0, 0, 0] s.temp_delay
        w hw hr4
      rw [show s.temperature.1 =
          Except.error SoilMoistureSensorError.ReadI2CError from by
        simp [SoilSensor.temperature, he]] at h
      exact absurd h (by simp)
    · have hr4 : s.i2c.resp (s.i2c.calls + 1)
          (BusOp.read s.address (List.length [0, 0, 0, 0])) = some data := by
        simpa using hr
      have he := i2c_read_eq_ok s [0x00, 0x04] [0, 0, 0, 0] s.temp_delay
        w data hw hr4
      simp [SoilSensor.temperature, he]

/-- A successful moisture read leaves exactly the write-delay-read trace
with the configured moisture delay. -/
theorem moisture_success_shape {D : Type} (s : SoilSensor EnvI2C D)
    (v : Nat) (h : s.moisture.1 = Except.ok v) :
    s.moisture.2.1 = [Event.busWrite s.address [0x0F, 0x10],
      Event.delayNs s.moisture_delay, Event.busRead s.address 2] := by
  rcases hw : s.i2c.resp s.i2c.calls (BusOp.write s.address [0x0F, 0x10])
    with _ | w
  · have he := i2c_read_eq_writeFail s [0x0F, 0x10] [0, 0] s.moisture_delay hw
    rw [show s.moisture.1 =
        Except.error SoilMoistureSensorError.WriteI2CError from by
      simp [SoilSensor.moisture, he]] at h
    exact absurd h (by simp)
  · rcases hr : s.i2c.resp (s.i2c.calls + 1) (BusOp.read s.address 2)
      with _ | data
    · have hr2 : s.i2c.resp (s.i2c.calls + 1)
          (BusOp.read s.address (List.length [0, 0])) = none := by
        simpa using hr
      have he := i2c_read_eq_readFail s [0x0F, 0x10] [0, 0] s.moisture_delay
        w hw hr2
      rw [show s.moisture.1 =
          Except.error SoilMoistureSensorError.ReadI2CError from by
        simp [SoilSensor.moisture, he]] at h
      exact absurd h (by simp)
    · have hr2 : s.i2c.resp (s.i2c.calls + 1)
          (BusOp.read s.address (List.length [0, 0])) = some data := by
        simpa using hr
      have he := i2c_read_eq_ok s [0x0F, 0x10] [0, 0] s.moisture_delay
        w data hw hr2
      simp [SoilSensor.moisture, he]

/-- Claim C4: every register transaction performs write, then delay with
exactly the requested duration, then read, in that order; a successful
`read` (or `read_async`) produces the six events of the two transactions in
order, the delays being the configured temperature and moisture delays. -/
theorem write_delay_read_ordering {D : Type} (s : SoilSensor EnvI2C D)
    (bytes buffer : List Nat) (d : Nat) :
    ((s.i2c_read bytes buffer d).2.1 = [Event.busWrite s.address bytes] ∨
      (s.i2c_read bytes buffer d).2.1 = [Event.busWrite s.address bytes,
        Event.delayNs d, Event.busRead s.address buffer.length]) ∧
    (s.i2c_read_async bytes buffer d).2.1 = (s.i2c_read bytes buffer d).2.1 ∧
    (∀ r, s.read.1 = Except.ok r →
      s.read.2.1 = [Event.busWrite s.address [0x00, 0x04],
        Event.delayNs s.temp_delay, Event.busRead s.address 4,
        Event.busWrite s.address [0x0F, 0x10],
        Event.delayNs s.moisture_delay, Event.busRead s.address 2]) ∧
    (∀ r, s.read_async.1 = Except.ok r →
      s.read_async.2.1 = [Event.busWrite s.address [0x00, 0x04],
        Event.delayNs s.temp_delay, Event.busRead s.address 4,
        Event.busWrite s.address [0x0F, 0x10],
        Event.delayNs s.moisture_delay, Event.busRead s.address 2]) := by
  have hread : ∀ r, s.read.1 = Except.ok r →
      s.read.2.1 = [Event.busWrite s.address [0x00, 0x04],
        Event.delayNs s.temp_delay, Event.busRead s.address 4,
        Event.busWrite s.address [0x0F, 0x10],
        Event.delayNs s.moisture_delay, Event.busRead s.address 2] := by
    intro r h
    rcases he : s.temperature with ⟨res, tr, s1⟩
    rcases res with e | t
    · rw [show s.read.1 = Except.error e from by simp [SoilSensor.read, he]] at h
      exact absurd h (by simp)
    · rcases he2 : s1.moisture with ⟨res2, tr2, s2⟩
      rcases res2 with e2 | m
      · rw [show s.read.1 = Except.error e2 from by
          simp [SoilSensor.read, he, he2]] at h
        exact absurd h (by simp)
      · have h1 := temperature_success_shape s t (by rw [he])
        have h2 := moisture_success_shape s1 m (by rw [he2])
        have hc := temperature_config s
        rw [he] at h1 hc
        rw [he2] at h2
        simp only at h1 h2 hc
        rw [show s.read.2.1 = tr ++ tr2 from by simp [SoilSensor.read, he, he2]]
        rw [h1, h2, hc.2.1, hc.2.2.2.1]
        rfl
  refine ⟨?_, ?_, hread, ?_⟩
  · rcases hw : s.i2c.resp s.i2c.calls (BusOp.write s.address bytes) with _ | w
    · rw [i2c_read_eq_writeFail s bytes buffer d hw]
      exact Or.inl rfl
    · rcases hr : s.i2c.resp (s.i2c.calls + 1)
        (BusOp.read s.address buffer.length) with _ | data
      · rw [i2c_read_eq_readFail s bytes buffer d w hw hr]
        exact Or.inr rfl
      · rw [i2c_read_eq_ok s bytes buffer d w data hw hr]
        exact Or.inr rfl
  · rw [i2c_read_async_eq]
  · rw [read_async_eq]
    exact hread

/-- A bus oracle on which every transaction succeeds: writes are accepted
and reads answer with the temperature bytes `[0, 0, 39, 16]` or the
moisture bytes `[3, 232]` according to the requested length. -/
def respFull : Nat → BusOp → Option (List Nat) := fun _ op =>
  match op with
  | BusOp.write _ _ => some []
  | BusOp.read _ len => if len = 4 then some [0, 0, 39, 16] else some [3, 232]

/-- A default driver over the all-success bus. -/
def sensorFull : SoilSensor EnvI2C Unit := SoilSensor.new ⟨respFull, 0⟩ ()

theorem write_delay_read_ordering_witness :
    sensorFull.read.2.1 = [Event.busWrite sensorFull.address [0x00, 0x04],
      Event.delayNs sensorFull.temp_delay, Event.busRead sensorFull.address 4,
      Event.busWrite sensorFull.address [0x0F, 0x10],
      Event.delayNs sensorFull.moisture_delay,
      Event.busRead sensorFull.address 2] :=
  (write_delay_read_ordering sensorFull [] [] 0).2.2.1
    ⟨F32.add (F32.mul (F32.ofInt 10000) TEMP_F_CONSTANT) TEMP_F_CONSTANT_SUM, 1000⟩
    (by rfl)

/-! ### Exact-rounding lemmas for the binary32 model

These support the unit-consistency law (claim C5): the Celsius constant
rounds to exactly `2⁻¹⁶`, so scaling by it is exact, and both association
orders of the Fahrenheit computation round the same exact product. -/

/-- Correctness of the fuelled base-2 logarithm. -/
theorem log2fuel_spec (fuel : Nat) : ∀ u : Nat, 0 < u → u < 2 ^ fuel →
    2 ^ log2fuel fuel u ≤ u ∧ u < 2 ^ (log2fuel fuel u + 1) := by
  induction fuel with
  | zero => intro u hu hf; simp at hf; omega
  | succ fuel ih =>
    intro u hu hf
    rw [log2fuel]
    by_cases h2 : u < 2
    · simp only [if_pos h2]
      constructor <;> simp <;> omega
    · simp only [if_neg h2]
      have hdpos : 0 < u / 2 := by omega
      have hdlt : u / 2 < 2 ^ fuel := by
        have hp : (2 : Nat) ^ (fuel + 1) = 2 ^ fuel * 2 := pow_succ 2 fuel
        omega
      obtain ⟨ih1, ih2⟩ := ih (u / 2) hdpos hdlt
      have e1 := pow_succ 2 (log2fuel fuel (u / 2))
      have e2 := pow_succ 2 (log2fuel fuel (u / 2) + 1)
      omega

/-- The fuelled base-2 logarithm is determined by a bracketing pair of
powers of two. -/
theorem log2fuel_eq (fuel u a : Nat) (hf : u < 2 ^ fuel)
    (h1 : 2 ^ a ≤ u) (h2 : u < 2 ^ (a + 1)) : log2fuel fuel u = a := by
  have hu : 0 < u := lt_of_lt_of_le (Nat.pos_pow_of_pos a (by norm_num)) h1
  obtain ⟨s1, s2⟩ := log2fuel_spec fuel u hu hf
  rcases Nat.lt_trichotomy (log2fuel fuel u) a with h | h | h
  · have := Nat.pow_le_pow_right (by norm_num : 1 ≤ 2) (Nat.succ_le_of_lt h)
    omega
  · exact h
  · have := Nat.pow_le_pow_right (by norm_num : 1 ≤ 2) (Nat.succ_le_of_lt h)
    omega

/-- Rounded division is exact on multiples of the divisor. -/
theorem rdivEven_mul_cancel (m d : Int) (hd : 0 < d) :
    rdivEven (m * d) d = m := by
  unfold rdivEven
  dsimp only
  rw [Int.mul_ediv_cancel _ (ne_of_gt hd), Int.mul_emod_left]
  simp [hd]

/-- Rounded division by one is the identity. -/
theorem rdivEven_one (n : Int) : rdivEven n 1 = n := by
  simpa using rdivEven_mul_cancel n 1 one_pos

/-- Rounded division returns the floor quotient or its successor. -/
theorem rdivEven_cases (n d : Int) :
    rdivEven n d = n / d ∨ rdivEven n d = n / d + 1 := by
  unfold rdivEven
  dsimp only
  split
  · exact Or.inl rfl
  · split
    · exact Or.inr rfl
    · split
      · exact Or.inl rfl
      · exact Or.inr rfl

/-- Rounded division of a value strictly inside `±2²⁴ · d` stays within
`±2²⁴`. -/
theorem rdivEven_bound (n d : Int) (hd : 0 < d)
    (hub : n < 2 ^ 24 * d) (hlb : -(2 ^ 24) * d < n) :
    (rdivEven n d).natAbs ≤ 2 ^ 24 := by
  have hq := Int.ediv_add_emod n d
  have hr0 : 0 ≤ n % d := Int.emod_nonneg n (ne_of_gt hd)
  have hrd : n % d < d := Int.emod_lt_of_pos n hd
  have hup : n / d < 2 ^ 24 := by
    rcases lt_or_le (n / d) (2 ^ 24) with h | h
    · exact h
    · exfalso
      have : 2 ^ 24 * d ≤ n / d * d := by
        exact mul_le_mul_of_nonneg_right h (le_of_lt hd)
      nlinarith
  have hlo : -(2 ^ 24) ≤ n / d := by
    rcases le_or_lt (-(2 ^ 24)) (n / d) with h | h
    · exact h
    · exfalso
      have h1 : n / d + 1 ≤ -(2 ^ 24) := by omega
      have : (n / d + 1) * d ≤ -(2 ^ 24) * d := by
        exact mul_le_mul_of_nonneg_right h1 (le_of_lt hd)
      nlinarith
  rcases rdivEven_cases n d with h | h <;> rw [h] <;> omega

/-- Cancellation of a common power of two in an integer equation. -/
theorem cancel_two_pow (a b : Int) (x : Nat) (h : a * 2 ^ x = b * 2 ^ x) :
    a = b :=
  mul_right_cancel₀ (pow_ne_zero x (by norm_num)) h

/-- Exactness of binary32 rounding: if the rational `n / d` is itself a
representable value `m * 2 ^ t * 2⁻¹⁴⁹` with a mantissa below `2²⁴`, the
rounding returns it unchanged. -/
theorem roundF32_exact (n : Int) (d : Nat) (hd : 0 < d) (m : Int) (t : Nat)
    (hm : m.natAbs < 2 ^ 24) (ht : t ≤ 600)
    (h : n * 2 ^ 149 = m * 2 ^ t * (d : Int)) :
    roundF32 n d = m * 2 ^ t := by
  by_cases hm0 : m = 0
  · subst hm0
    have hn0 : n = 0 := by
      have h2 : n * 2 ^ 149 = 0 := by rw [h]; ring
      rcases mul_eq_zero.mp h2 with h3 | h3
      · exact h3
      · exact absurd h3 (pow_ne_zero _ (by norm_num))
    subst hn0
    simp [roundF32]
  · have hn0 : n ≠ 0 := by
      intro h0
      subst h0
      have h2 : m * 2 ^ t * (d : Int) = 0 := by rw [← h]; ring
      rcases mul_eq_zero.mp h2 with h3 | h3
      · rcases mul_eq_zero.mp h3 with h4 | h4
        · exact hm0 h4
        · exact absurd h4 (pow_ne_zero _ (by norm_num))
      · have : d = 0 := by exact_mod_cast h3
        omega
    have hNat : n.natAbs * 2 ^ 149 = m.natAbs * 2 ^ t * d := by
      have h2 := congrArg Int.natAbs h
      simpa [Int.natAbs_mul, Int.natAbs_pow] using h2
    have htval : n.natAbs * 2 ^ 300 / d = m.natAbs * 2 ^ (t + 151) := by
      have h2 : n.natAbs * 2 ^ 300 = m.natAbs * 2 ^ (t + 151) * d := by
        calc n.natAbs * 2 ^ 300 = n.natAbs * 2 ^ 149 * 2 ^ 151 := by ring
        _ = m.natAbs * 2 ^ t * d * 2 ^ 151 := by rw [hNat]
        _ = m.natAbs * 2 ^ (t + 151) * d := by ring
      rw [h2, Nat.mul_div_cancel _ hd]
    have hmpos : 0 < m.natAbs := Int.natAbs_pos.mpr hm0
    obtain ⟨hb1, hb2⟩ := log2fuel_spec 1000 m.natAbs hmpos
      (lt_trans hm (by norm_num))
    set b := log2fuel 1000 m.natAbs with hbdef
    have hb23 : b ≤ 23 := by
      by_contra hc
      have : 2 ^ 24 ≤ 2 ^ b := Nat.pow_le_pow_right (by norm_num) (by omega)
      omega
    have hlog : log2fuel 1000 (n.natAbs * 2 ^ 300 / d) = b + (t + 151) := by
      rw [htval]
      apply log2fuel_eq
      · calc m.natAbs * 2 ^ (t + 151) < 2 ^ 24 * 2 ^ (t + 151) :=
          mul_lt_mul_of_pos_right hm (by positivity)
        _ = 2 ^ (24 + (t + 151)) := (pow_add 2 24 (t + 151)).symm
        _ ≤ 2 ^ 1000 := Nat.pow_le_pow_right (by norm_num) (by omega)
      · rw [pow_add]
        exact Nat.mul_le_mul_right _ hb1
      · calc m.natAbs * 2 ^ (t + 151) < 2 ^ (b + 1) * 2 ^ (t + 151) :=
          mul_lt_mul_of_pos_right hb2 (by positivity)
        _ = 2 ^ (b + (t + 151) + 1) := by rw [← pow_add]; congr 1; omega
    have hMpos : ¬(m.natAbs * 2 ^ (t + 151) = 0) := by positivity
    unfold roundF32
    dsimp only
    rw [if_neg hn0, hlog, htval, if_neg hMpos]
    rcases Nat.lt_or_ge (b + t) 24 with hbt | hbt
    · have hg : max (((b + (t + 151) : Nat) : Int) - 300 - 23) (-149) = -149 := by
        apply max_eq_right
        push_cast
        omega
      rw [hg, if_pos (by norm_num : (-149 : Int) ≤ 0)]
      have hA1 : (-(-149 : Int)).toNat = 149 := by decide
      have hA2 : ((-149 : Int) + 149).toNat = 0 := by decide
      rw [hA1, hA2, pow_zero, mul_one, h,
        rdivEven_mul_cancel _ _ (by exact_mod_cast hd)]
    · rcases Nat.lt_or_ge 172 (b + t) with hbt2 | hbt2
      · obtain ⟨c, hc⟩ : ∃ c, b + c = 23 := ⟨23 - b, by omega⟩
        obtain ⟨u, hu⟩ : ∃ u, b + t = 173 + u := ⟨b + t - 173, by omega⟩
        have htcu : t = c + u + 150 := by omega
        have hg : max (((b + (t + 151) : Nat) : Int) - 300 - 23) (-149) =
            (u : Int) + 1 := by
          have h2 : ((b + (t + 151) : Nat) : Int) - 300 - 23 = (u : Int) + 1 := by
            push_cast
            omega
          rw [h2]
          apply max_eq_left
          omega
        rw [hg, if_neg (by omega : ¬((u : Int) + 1 ≤ 0))]
        have h1 : ((u : Int) + 1).toNat = u + 1 := by omega
        have h2 : ((u : Int) + 1 + 149).toNat = u + 150 := by omega
        rw [h1, h2]
        have hDpos : (0 : Int) < (d : Int) * 2 ^ (u + 1) := by
          have hdi : (0 : Int) < (d : Int) := by exact_mod_cast hd
          exact mul_pos hdi (by positivity)
        have key : n = m * 2 ^ c * ((d : Int) * 2 ^ (u + 1)) := by
          apply cancel_two_pow _ _ 149
          rw [h, htcu]
          ring
        rw [key, rdivEven_mul_cancel _ _ hDpos, htcu]
        ring
      · obtain ⟨c, hc⟩ : ∃ c, b + c = 23 := ⟨23 - b, by omega⟩
        obtain ⟨u, hu⟩ : ∃ u, b + t = 23 + u := ⟨b + t - 23, by omega⟩
        have htcu : t = c + u := by omega
        have hu149 : u ≤ 149 := by omega
        have hg : max (((b + (t + 151) : Nat) : Int) - 300 - 23) (-149) =
            (u : Int) - 149 := by
          have h2 : ((b + (t + 151) : Nat) : Int) - 300 - 23 = (u : Int) - 149 := by
            push_cast
            omega
          rw [h2]
          apply max_eq_left
          omega
        rw [hg, if_pos (by omega : ((u : Int) - 149 ≤ 0))]
        have h1 : (-((u : Int) - 149)).toNat = 149 - u := by omega
        have h2 : ((u : Int) - 149 + 149).toNat = u := by omega
        rw [h1, h2]
        have hexp : 149 - u + u = 149 := by omega
        have key : n * 2 ^ (149 - u) = m * 2 ^ c * (d : Int) := by
          apply cancel_two_pow _ _ u
          calc n * 2 ^ (149 - u) * 2 ^ u = n * 2 ^ 149 := by
                rw [mul_assoc, ← pow_add, hexp]
          _ = m * 2 ^ t * (d : Int) := h
          _ = m * 2 ^ c * (d : Int) * 2 ^ u := by rw [htcu]; ring
        rw [key, rdivEven_mul_cancel _ _ (by exact_mod_cast hd), htcu]
        ring

/-- Value of the Celsius constant: the literal `0.000015258789` rounds to
exactly `2⁻¹⁶` in binary32. -/
theorem tempC_q : TEMP_C_CONSTANT.q = 2 ^ 133 := by decide

/-- Value of the precomputed Fahrenheit factor `fl(2⁻¹⁶ · fl(1.8))`. -/
theorem tempF_q : TEMP_F_CONSTANT.q = 15099494 * 2 ^ 110 := by decide

/-- Value of the literal `1.8` in binary32. -/
theorem lit18_q : (f32lit 18 10).q = 15099494 * 2 ^ 126 := by decide

/-- Every `f32` obtained by casting an integer of magnitude at most `2³¹`
has the form `m * 2 ^ t` with `|m| < 2²⁴` and `126 ≤ t`; in particular its
scaled representation is divisible by high powers of two. -/
theorem ofInt_shape (raw : Int) (hraw : raw.natAbs ≤ 2 ^ 31) :
    ∃ (m : Int) (t : Nat), (F32.ofInt raw).q = m * 2 ^ t ∧
      m.natAbs < 2 ^ 24 ∧ 126 ≤ t ∧ t ≤ 600 := by
  by_cases hsmall : raw.natAbs < 2 ^ 24
  · exact ⟨raw, 149,
      roundF32_exact raw 1 one_pos raw 149 hsmall (by norm_num) (by push_cast; ring),
      hsmall, by norm_num, by norm_num⟩
  · have h0 : raw ≠ 0 := by
      intro hc
      subst hc
      simp at hsmall
    have hpos : 0 < raw.natAbs := Int.natAbs_pos.mpr h0
    obtain ⟨hb1, hb2⟩ := log2fuel_spec 1000 raw.natAbs hpos
      (lt_of_le_of_lt hraw (by norm_num))
    set b := log2fuel 1000 raw.natAbs with hbdef
    have hb31 : b ≤ 31 := by
      by_contra hc
      have hge : 2 ^ 32 ≤ 2 ^ b := Nat.pow_le_pow_right (by norm_num) (by omega)
      have h32 : (2 : Nat) ^ 31 < 2 ^ 32 := by norm_num
      omega
    have hb24 : 24 ≤ b := by
      by_contra hc
      have hle : (2 : Nat) ^ (b + 1) ≤ 2 ^ 24 :=
        Nat.pow_le_pow_right (by norm_num) (by omega)
      omega
    have htval : raw.natAbs * 2 ^ 300 / 1 = raw.natAbs * 2 ^ 300 := Nat.div_one _
    have hlog : log2fuel 1000 (raw.natAbs * 2 ^ 300 / 1) = b + 300 := by
      rw [htval]
      apply log2fuel_eq
      · calc raw.natAbs * 2 ^ 300 < 2 ^ (b + 1) * 2 ^ 300 :=
          mul_lt_mul_of_pos_right hb2 (by positivity)
        _ = 2 ^ (b + 1 + 300) := (pow_add 2 (b + 1) 300).symm
        _ ≤ 2 ^ 1000 := Nat.pow_le_pow_right (by norm_num) (by omega)
      · rw [pow_add]
        exact Nat.mul_le_mul_right _ hb1
      · calc raw.natAbs * 2 ^ 300 < 2 ^ (b + 1) * 2 ^ 300 :=
          mul_lt_mul_of_pos_right hb2 (by positivity)
        _ = 2 ^ (b + 300 + 1) := by rw [← pow_add]
    have hg : max (((b + 300 : Nat) : Int) - 300 - 23) (-149) = (b : Int) - 23 := by
      have h2 : ((b + 300 : Nat) : Int) - 300 - 23 = (b : Int) - 23 := by
        push_cast
        ring
      rw [h2]
      apply max_eq_left
      omega
    have hval : roundF32 raw 1 =
        rdivEven raw ((1 : Int) * 2 ^ (b - 23)) * 2 ^ (b + 126) := by
      unfold roundF32
      dsimp only
      rw [if_neg h0, hlog, htval,
        if_neg (Nat.mul_ne_zero (by omega) (by positivity)), hg,
        if_neg (by omega : ¬((b : Int) - 23 ≤ 0))]
      have hh1 : ((b : Int) - 23).toNat = b - 23 := by omega
      have hh2 : ((b : Int) - 23 + 149).toNat = b + 126 := by omega
      rw [hh1, hh2, Nat.cast_one]
    have hd1 : (0 : Int) < (1 : Int) * 2 ^ (b - 23) := by positivity
    have hcast : (raw.natAbs : Int) < 2 ^ (b + 1) := by exact_mod_cast hb2
    have hpw : (2 : Int) ^ 24 * ((1 : Int) * 2 ^ (b - 23)) = 2 ^ (b + 1) := by
      rw [one_mul, ← pow_add]
      congr 1
      omega
    have hpw2 : -((2 : Int) ^ 24) * ((1 : Int) * 2 ^ (b - 23)) = -(2 ^ (b + 1)) := by
      rw [one_mul, neg_mul, ← pow_add]
      congr 2
      omega
    have hqb : (rdivEven raw ((1 : Int) * 2 ^ (b - 23))).natAbs ≤ 2 ^ 24 := by
      apply rdivEven_bound _ _ hd1 <;> omega
    by_cases hq24 : (rdivEven raw ((1 : Int) * 2 ^ (b - 23))).natAbs = 2 ^ 24
    · rcases Int.natAbs_eq (rdivEven raw ((1 : Int) * 2 ^ (b - 23))) with hsgn | hsgn
      · refine ⟨2 ^ 23, b + 127, ?_, by norm_num, by omega, by omega⟩
        show roundF32 raw 1 = _
        rw [hval, hsgn, hq24]
        push_cast
        ring
      · refine ⟨-(2 ^ 23), b + 127, ?_, by norm_num, by omega, by omega⟩
        show roundF32 raw 1 = _
        rw [hval, hsgn, hq24]
        push_cast
        ring
    · refine ⟨rdivEven raw ((1 : Int) * 2 ^ (b - 23)), b + 126, hval, by omega,
        by omega, by omega⟩

/-- The big-endian signed decoding of four bytes has magnitude at most
`2³¹`. -/
theorem i32_range (b0 b1 b2 b3 : Nat) (h0 : b0 < 256) (h1 : b1 < 256)
    (h2 : b2 < 256) (h3 : b3 < 256) :
    (i32_from_be_bytes [b0, b1, b2, b3]).natAbs ≤ 2 ^ 31 := by
  simp only [i32_from_be_bytes, List.getD_cons_zero, List.getD_cons_succ]
  split <;> omega

/-- Multiplying an integer-valued `f32` by the precomputed Fahrenheit factor
agrees with first scaling by the Celsius constant (exactly `2⁻¹⁶`, so the
scaling is error-free) and then multiplying by `1.8`. -/
theorem mul_tempF_assoc (raw : Int) (hraw : raw.natAbs ≤ 2 ^ 31) :
    F32.mul (F32.ofInt raw) TEMP_F_CONSTANT =
      F32.mul (F32.mul (F32.ofInt raw) TEMP_C_CONSTANT) (f32lit 18 10) := by
  obtain ⟨m, t, hq, hm, ht126, ht600⟩ := ofInt_shape raw hraw
  obtain ⟨t2, rfl⟩ : ∃ t2, t = t2 + 16 := ⟨t - 16, by omega⟩
  have hinner : F32.mul (F32.ofInt raw) TEMP_C_CONSTANT = F32.mk (m * 2 ^ t2) := by
    show F32.mk (roundF32 ((F32.ofInt raw).q * TEMP_C_CONSTANT.q) (2 ^ 298)) = _
    congr 1
    rw [hq, tempC_q]
    apply roundF32_exact _ _ (by positivity) _ _ hm (by omega)
    push_cast
    ring
  rw [hinner]
  show F32.mk (roundF32 ((F32.ofInt raw).q * TEMP_F_CONSTANT.q) (2 ^ 298)) =
    F32.mk (roundF32 ((F32.mk (m * 2 ^ t2)).q * (f32lit 18 10).q) (2 ^ 298))
  congr 2
  rw [hq, tempF_q, lit18_q]
  ring

/-- A fully successful temperature transaction returns the unit-directed
conversion of the decoded big-endian word. -/
theorem temperature_ok_eq {D : Type} (s : SoilSensor EnvI2C D)
    (b0 b1 b2 b3 : Nat) (w : List Nat)
    (hw : s.i2c.resp s.i2c.calls (BusOp.write s.address [0x00, 0x04]) = some w)
    (hr : s.i2c.resp (s.i2c.calls + 1) (BusOp.read s.address 4) =
      some [b0, b1, b2, b3])
    (h0 : b0 < 256) (h1 : b1 < 256) (h2 : b2 < 256) (h3 : b3 < 256) :
    s.temperature.1 = Except.ok (match s.unit with
      | TemperatureUnit.Celsius =>
        F32.mul (F32.ofInt (i32_from_be_bytes [b0, b1, b2, b3])) TEMP_C_CONSTANT
      | TemperatureUnit.Fahrenheit =>
        F32.add (F32.mul (F32.ofInt (i32_from_be_bytes [b0, b1, b2, b3]))
          TEMP_F_CONSTANT) TEMP_F_CONSTANT_SUM) := by
  have hr4 : s.i2c.resp (s.i2c.calls + 1)
      (BusOp.read s.address (List.length [0, 0, 0, 0])) = some [b0, b1, b2, b3] := by
    simpa using hr
  have he := i2c_read_eq_ok s [0x00, 0x04] [0, 0, 0, 0] s.temp_delay w
    [b0, b1, b2, b3] hw hr4
  have hf : fillBuffer [0, 0, 0, 0] [b0, b1, b2, b3] = [b0, b1, b2, b3] := by
    simp [fillBuffer, Nat.mod_eq_of_lt h0, Nat.mod_eq_of_lt h1,
      Nat.mod_eq_of_lt h2, Nat.mod_eq_of_lt h3]
  rw [hf] at he
  simp [SoilSensor.temperature, he]

/-- Claim C5: for every 4-byte big-endian signed response, the Fahrenheit
reading equals the Celsius reading times `1.8` plus `32.0`, as an exact
equality of the produced `f32` values.  (This holds because the Celsius
constant rounds to exactly `2⁻¹⁶`.) -/
theorem fahrenheit_celsius_consistency {D : Type} (s : SoilSensor EnvI2C D)
    (b0 b1 b2 b3 : Nat) (w : List Nat)
    (hw : s.i2c.resp s.i2c.calls (BusOp.write s.address [0x00, 0x04]) = some w)
    (hr : s.i2c.resp (s.i2c.calls + 1) (BusOp.read s.address 4) =
      some [b0, b1, b2, b3])
    (h0 : b0 < 256) (h1 : b1 < 256) (h2 : b2 < 256) (h3 : b3 < 256)
    (c : F32)
    (hc : ((s.with_units TemperatureUnit.Celsius).temperature).1 = Except.ok c) :
    ((s.with_units TemperatureUnit.Fahrenheit).temperature).1 =
      Except.ok (F32.add (F32.mul c (f32lit 18 10)) (f32lit 32 1)) := by
  have hC := temperature_ok_eq (s.with_units TemperatureUnit.Celsius)
    b0 b1 b2 b3 w hw hr h0 h1 h2 h3
  have hF := temperature_ok_eq (s.with_units TemperatureUnit.Fahrenheit)
    b0 b1 b2 b3 w hw hr h0 h1 h2 h3
  have hC2 : ((s.with_units TemperatureUnit.Celsius).temperature).1 =
      Except.ok (F32.mul (F32.ofInt (i32_from_be_bytes [b0, b1, b2, b3]))
        TEMP_C_CONSTANT) := by
    rw [hC]
    exact rfl
  have hF2 : ((s.with_units TemperatureUnit.Fahrenheit).temperature).1 =
      Except.ok (F32.add (F32.mul (F32.ofInt (i32_from_be_bytes [b0, b1, b2, b3]))
        TEMP_F_CONSTANT) TEMP_F_CONSTANT_SUM) := by
    rw [hF]
    exact rfl
  have hcx : c = F32.mul (F32.ofInt (i32_from_be_bytes [b0, b1, b2, b3]))
      TEMP_C_CONSTANT := by
    have h5 := hC2.symm.trans hc
    simpa using h5.symm
  subst hcx
  rw [hF2, mul_tempF_assoc _ (i32_range b0 b1 b2 b3 h0 h1 h2 h3)]
  rfl

theorem fahrenheit_celsius_consistency_witness :
    (((SoilSensor.new (EnvI2C.mk respTempOk 0) ()).with_units
        TemperatureUnit.Fahrenheit).temperature).1 =
      Except.ok (F32.add (F32.mul
        (F32.mul (F32.ofInt (i32_from_be_bytes [0, 0, 39, 16])) TEMP_C_CONSTANT)
        (f32lit 18 10)) (f32lit 32 1)) :=
  fahrenheit_celsius_consistency (SoilSensor.new (EnvI2C.mk respTempOk 0) ())
    0 0 39 16 [] rfl rfl (by decide) (by decide) (by decide) (by decide)
    (F32.mul (F32.ofInt (i32_from_be_bytes [0, 0, 39, 16])) TEMP_C_CONSTANT)
    (by rfl)
